import Mathlib

/-!
Shallow embedding of the transformer / attention building blocks of
`pytorch_end2end_speech_recognition`:

* `neural_sp/models/seq2seq/decoders/attention.py` — single-head
  `AttentionMechanism` (additive, location-aware and dot-product scoring,
  masking, sharpening, sigmoid smoothing, cached encoder features);
* `neural_sp/models/modules/transformer.py` — `PositionalEncoding`,
  `PositionwiseFeedForward`, `TransformerEncoderBlock`,
  `TransformerDecoderBlock`.

Tensors are modelled as total real-valued functions of their (natural
number) indices; a tensor of shape `[B, T]` becomes `ℕ → ℕ → ℝ` together
with the relevant sizes passed explicitly where the code reads them off
the tensor (`enc_out.size()`).  Values at indices beyond the declared
sizes are irrelevant junk: every theorem quantifies only over in-range
indices.  Floating point arithmetic is idealised as real arithmetic.

External modules that are not part of this fragment — `LinearND`
(`neural_sp.models.linear`), `nn.Conv2d`, `nn.LayerNorm`,
`MultiheadAttentionMechanism` and the dropout layers — are carried as
opaque function-valued fields of the corresponding structures, exactly at
the places where the Python code applies them.
-/

noncomputable section

namespace NeuralSp

/-- A `[B, T]`-shaped real tensor as a total function of its indices. -/
abbrev T2 : Type := ℕ → ℕ → ℝ

/-- A `[B, T, D]`-shaped real tensor as a total function of its indices. -/
abbrev T3 : Type := ℕ → ℕ → ℕ → ℝ

/-- A `[B, H, L, T]`-shaped boolean mask tensor (byte tensor in torch). -/
abbrev M4 : Type := ℕ → ℕ → ℕ → ℕ → Bool

/-! ## `AttentionMechanism` (attention.py) -/

/-- The `attn_type` argument of `AttentionMechanism.__init__`: exactly the
six string values the Python code branches on. -/
inductive AttnType where
  | add
  | location
  | dot
  | luong_dot
  | luong_general
  | luong_concat
deriving DecidableEq

/-- The single-head attention module (attention.py, lines 21–106), with the
two mutable attributes `enc_out_a` and `mask` that `forward` caches and
`reset` clears.  `w_enc`, `w_dec`, `v`, `w_conv` stand for the `LinearND`
sub-modules (maps acting on the last tensor dimension; `v` has output
dimension 1, already squeezed); `conv` stands for the `nn.Conv2d`
sub-module, taking the previous attention weights `[B, T]` to the
convolution features `[B, T, conv_out_channels]` (squeeze and transpose
from lines 147–148 already applied); `dropout` is the optional attention
dropout (`None` when the dropout probability is 0). -/
structure AttentionMechanism where
  attn_type : AttnType
  attn_dim : ℕ
  sharpening_factor : ℝ
  sigmoid_smoothing : Bool
  dropout : Option (T2 → T2)
  w_enc : (ℕ → ℝ) → ℕ → ℝ
  w_dec : (ℕ → ℝ) → ℕ → ℝ
  v : (ℕ → ℝ) → ℝ
  conv : T2 → T3
  w_conv : (ℕ → ℝ) → ℕ → ℝ
  enc_out_a : Option T3
  mask : Option T2

/-- Method `AttentionMechanism.reset` (attention.py, lines 104–106): clear the two
cached attributes, leaving every other attribute unchanged. -/
def AttentionMechanism.reset (m : AttentionMechanism) : AttentionMechanism :=
  { m with enc_out_a := none, mask := none }

/-- The padding mask built in `forward` (attention.py, lines 131–135): a
`[B, T]` tensor filled with 1, then row `b` is zeroed from position
`x_lens[b]` on whenever `x_lens[b] < enc_time`. -/
def buildMask (enc_time : ℕ) (x_lens : ℕ → ℕ) : T2 :=
  fun b t => if x_lens b < enc_time ∧ x_lens b ≤ t then 0 else 1

/-- Pre-computation of the encoder-side features (attention.py, line 128):
`w_enc` applied to `enc_out` along the last dimension. -/
def AttentionMechanism.precompute (m : AttentionMechanism) (enc_out : T3) : T3 :=
  fun b t a => m.w_enc (enc_out b t) a

/-- The cached mask if present, else the mask freshly built from `x_lens`
(attention.py, lines 131–135). -/
def AttentionMechanism.maskUsed (m : AttentionMechanism) (enc_time : ℕ)
    (x_lens : ℕ → ℕ) : T2 :=
  m.mask.getD (buildMask enc_time x_lens)

/-- The cached encoder features if present, else freshly computed from
`enc_out` (attention.py, lines 127–128). -/
def AttentionMechanism.encA (m : AttentionMechanism) (enc_out : T3) : T3 :=
  (m.enc_out_a).getD (m.precompute enc_out)

/-- The unmasked attention energy (attention.py, lines 137–161), one case
per `attn_type`; the three `luong_*` branches raise `NotImplementedError`
(`none`).  For `add` and `location` the decoder state `dec_out`
(`[B, 1, dec_units]`, the singleton axis dropped here) is broadcast over
the `enc_time` axis by `expand_as` (line 138), which in the functional
representation is just using `dec_out b` at every `t`.  For `dot` the
energy is the batched matrix product of `enc_out_a` `[B, T, A]` with the
transposed `w_dec(dec_out)` `[B, A, 1]`, squeezed to `[B, T]`. -/
def AttentionMechanism.energyOf (m : AttentionMechanism) (encA : T3)
    (dec_out : T2) (aw_prev : T2) : Option T2 :=
  match m.attn_type with
  | .add =>
      some (fun b t => m.v (fun a => Real.tanh (encA b t a + m.w_dec (dec_out b) a)))
  | .location =>
      some (fun b t => m.v (fun a =>
        Real.tanh (encA b t a + m.w_dec (dec_out b) a
          + m.w_conv (fun c => m.conv aw_prev b t c) a)))
  | .dot =>
      some (fun b t => ∑ a ∈ Finset.range m.attn_dim, encA b t a * m.w_dec (dec_out b) a)
  | .luong_dot => none
  | .luong_general => none
  | .luong_concat => none

/-- Attention-weight computation from the energy (attention.py, lines
163–170): the energy is masked (`masked_fill_` with `-inf` where the mask
is 0), multiplied by `sharpening_factor`, and passed through a sigmoid
(`sigmoid_smoothing`) or a softmax over the time axis.  A masked position
holds `-inf`, so (for a positive sharpening factor) its exponential
vanishes: it contributes `0` to the softmax numerator and denominator, and
`sigmoid(-inf) = 0`. -/
def AttentionMechanism.smooth (m : AttentionMechanism) (mask : T2) (energy : T2)
    (enc_time : ℕ) : T2 :=
  if m.sigmoid_smoothing then
    fun b t => if mask b t = 0 then 0
      else 1 / (1 + Real.exp (-(energy b t * m.sharpening_factor)))
  else
    fun b t =>
      (if mask b t = 0 then 0 else Real.exp (energy b t * m.sharpening_factor)) /
      (∑ u ∈ Finset.range enc_time,
        if mask b u = 0 then 0 else Real.exp (energy b u * m.sharpening_factor))

/-- Result of a successful `AttentionMechanism.forward` call: the context
vector `[B, 1, enc_units]` (singleton axis dropped), the attention weights
`[B, T]`, and the module with its updated cached attributes. -/
structure AttnResult where
  context : T2
  aw : T2
  st : AttentionMechanism

/-- Method `AttentionMechanism.forward` (attention.py, lines 108–178).
`enc_time` is `enc_out.size(1)`; the batch size only drives loops and
`expand`s, which the functional representation renders index-wise, so it
is not needed.  `aw_step = none` is the `aw_step is None` case (line
123–124, zero-filled).  The `luong_*` branches raise `NotImplementedError`
(`none`); they are unreachable from `__init__`, which already raises for
those types.  The context is `matmul(aw_step.unsqueeze(1), enc_out)`
(line 177), i.e. the attention-weighted sum of encoder outputs, computed
from the weights after the optional attention dropout. -/
def AttentionMechanism.forward (m : AttentionMechanism) (enc_out : T3)
    (enc_time : ℕ) (x_lens : ℕ → ℕ) (dec_out : T2) (aw_step : Option T2) :
    Option AttnResult :=
  let aw0 : T2 := aw_step.getD (fun _ _ => 0)
  let encA : T3 := m.encA enc_out
  let mask : T2 := m.maskUsed enc_time x_lens
  match m.energyOf encA dec_out aw0 with
  | none => none
  | some energy =>
      let aw1 : T2 := m.smooth mask energy enc_time
      let aw2 : T2 := match m.dropout with
        | none => aw1
        | some f => f aw1
      some { context := fun b e => ∑ t ∈ Finset.range enc_time, aw2 b t * enc_out b t e,
             aw := aw2,
             st := { m with enc_out_a := some encA, mask := some mask } }

/-! ## `transformer.py` -/

/-- Modelled from the spec: the helper `make_pad_mask`
(`neural_sp.models.torch_utils`, imported by transformer.py but not part
of this fragment) builds the boolean padding mask of a batch of sequence
lengths, marking the valid (non-padded) positions `t < lens[b]`.  The
theorems below that involve it do not depend on its values. -/
def make_pad_mask (lens : ℕ → ℕ) : ℕ → ℕ → Bool :=
  fun b t => decide (t < lens b)

/-- The `pe_type` argument (a string in the Python code): `nil` stands for
a falsy value (`None`, the empty string, …), `add` and `concat` for those two strings,
and `other n` for any other truthy string. -/
inductive PeType where
  | nil
  | add
  | concat
  | other (n : ℕ)
deriving DecidableEq

/-- Python truthiness of a `pe_type` value. -/
def PeType.truthy : PeType → Bool
  | .nil => false
  | _ => true

/-- The sinusoidal rate `div_term` of `PositionalEncoding.__init__`
(transformer.py, line 43): entry `k` corresponds to feature index `2k` and
equals `exp(2k · −(log 10000 / d_model))`. -/
def peDivTerm (d_model : ℕ) (k : ℕ) : ℝ :=
  Real.exp ((2 * k : ℝ) * -(Real.log 10000 / (d_model : ℝ)))

/-- The positional-encoding table of `PositionalEncoding.__init__`
(transformer.py, lines 41–45): even feature indices `2k` hold
`sin(pos · div_term k)` (line 44, slice `0::2`), odd indices `2k+1` hold
`cos(pos · div_term k)` (line 45, slice `1::2`). -/
def peTable (d_model : ℕ) : ℕ → ℕ → ℝ :=
  fun pos j =>
    if j % 2 = 0 then Real.sin ((pos : ℝ) * peDivTerm d_model (j / 2))
    else Real.cos ((pos : ℝ) * peDivTerm d_model (j / 2))

/-- Structure `PositionalEncoding` (transformer.py, lines 22–63).  The buffer `pe`
has shape `[1, max_len, d_model]`; the leading batch axis (line 46) is
dropped here.  `drop` stands for the `nn.Dropout` sub-module (only ever
applied when `pe_type` is truthy, matching the code, which only creates it
then). -/
structure PositionalEncoding where
  d_model : ℕ
  pe_type : PeType
  pe : ℕ → ℕ → ℝ
  drop : T3 → T3

/-- Constructor `PositionalEncoding.__init__` (transformer.py, lines 33–49): for a
truthy `pe_type` the table is precomputed once, with `max_len` rows; for a
falsy `pe_type` no buffer is registered (modelled as an all-zero table,
which `forward` never reads in that case). -/
def PositionalEncoding.init (d_model : ℕ) (pe_type : PeType) (max_len : ℕ)
    (drop : T3 → T3) : PositionalEncoding :=
  { d_model := d_model
    pe_type := pe_type
    pe := if pe_type.truthy then
        (fun pos j => if pos < max_len then peTable d_model pos j else 0)
      else fun _ _ => 0
    drop := drop }

/-- Method `PositionalEncoding.forward` (transformer.py, lines 51–63).  The input
is first scaled by `sqrt(d_model)` (line 52); a falsy `pe_type` returns it
unchanged (line 54–55); `add` adds the positional slice `pe[:, :T]` and
applies dropout; `concat` concatenates the slice on the last dimension
(`dsz` is `xs.size(2)`, the concatenation boundary) and applies dropout;
any other truthy `pe_type` raises `NotImplementedError` (`none`).  The
slice `pe[:, :xs.size(1)]` is the identity on the in-range positions the
theorems quantify over, so it is not materialised. -/
def PositionalEncoding.forward (p : PositionalEncoding) (xs : T3) (dsz : ℕ) :
    Option T3 :=
  let xs' : T3 := fun b t d => xs b t d * Real.sqrt (p.d_model : ℝ)
  if p.pe_type.truthy = false then some xs'
  else
    match p.pe_type with
    | .add => some (p.drop (fun b t d => xs' b t d + p.pe t d))
    | .concat =>
        some (p.drop (fun b t d => if d < dsz then xs' b t d else p.pe t (d - dsz)))
    | _ => none

/-- Structure `PositionwiseFeedForward` (transformer.py, lines 66–84): `W1`/`b1` are
the weight and bias of the `nn.Linear(d_model, d_ff)` sub-module `w_1`,
`W2`/`b2` those of `w_2 : nn.Linear(d_ff, d_model)`; `dropoutF` stands for
the element-wise `nn.Dropout` sub-module. -/
structure PositionwiseFeedForward where
  d_model : ℕ
  d_ff : ℕ
  W1 : ℕ → ℕ → ℝ
  b1 : ℕ → ℝ
  W2 : ℕ → ℕ → ℝ
  b2 : ℕ → ℝ
  dropoutF : ℝ → ℝ

/-- An `nn.Linear` layer applied to a `[B, T, n]` tensor: the affine map
`x ↦ W x + bias` acting on the last dimension, the same at every `(b, t)`. -/
def linear3 (W : ℕ → ℕ → ℝ) (bias : ℕ → ℝ) (n : ℕ) (xs : T3) : T3 :=
  fun b t j => (∑ k ∈ Finset.range n, W j k * xs b t k) + bias j

/-- Method `PositionwiseFeedForward.forward` (transformer.py, lines 83–84):
`w_2(dropout(relu(w_1(xs))))`, with `F.relu x = max x 0` applied
element-wise. -/
def PositionwiseFeedForward.forward (f : PositionwiseFeedForward) (xs : T3) : T3 :=
  linear3 f.W2 f.b2 f.d_ff
    (fun b t k => f.dropoutF (max (linear3 f.W1 f.b1 f.d_model xs b t k) 0))

/-- The same map on a single position vector, for stating that the
feed-forward sublayer acts position-wise. -/
def pffPoint (f : PositionwiseFeedForward) (x : ℕ → ℝ) : ℕ → ℝ :=
  fun j =>
    (∑ k ∈ Finset.range f.d_ff,
      f.W2 j k * f.dropoutF (max ((∑ i ∈ Finset.range f.d_model, f.W1 k i * x i) + f.b1 k) 0))
    + f.b2 j

/-- Structure `TransformerEncoderBlock` (transformer.py, lines 87–161).  `self_attn`
stands for the `MultiheadAttentionMechanism` sub-module (not part of this
fragment): a map of `(key, value, query, mask)` to the attended output and
the attention weights.  `norm1`, `norm2` stand for the `nn.LayerNorm`
sub-modules (maps on the feature vector of one position), `dropout1`, `dropout2`
for the element-wise `nn.Dropout` sub-modules. -/
structure TransformerEncoderBlock where
  n_heads : ℕ
  self_attn : T3 → T3 → T3 → M4 → T3 × T3
  norm1 : (ℕ → ℝ) → ℕ → ℝ
  dropout1 : ℝ → ℝ
  feed_forward : PositionwiseFeedForward
  norm2 : (ℕ → ℝ) → ℕ → ℝ
  dropout2 : ℝ → ℝ

/-- The encoder self-attention mask (transformer.py, lines 146–147):
`make_pad_mask(xlens)` `[B, T]`, unsqueezed and expanded over the query
and head axes, so entry `(b, h, i, j)` only depends on `(b, j)`. -/
def encSelfAttnMask (xlens : ℕ → ℕ) : M4 :=
  fun b _h _i j => make_pad_mask xlens b j

/-- Method `TransformerEncoderBlock.forward` (transformer.py, lines 130–161):
pre-norm residual composition.  `_xs = norm1(xs)`;
`xs ← dropout1(self_attn(_xs, _xs, _xs, mask)) + xs`;
`xs ← dropout2(feed_forward(norm2(xs))) + xs`.  The `cache` flag only
resets the (stateless here) sub-module and is dropped. -/
def TransformerEncoderBlock.forward (blk : TransformerEncoderBlock) (xs : T3)
    (xlens : ℕ → ℕ) : T3 × T3 :=
  let xx_mask : M4 := encSelfAttnMask xlens
  let nxs : T3 := fun b t d => blk.norm1 (xs b t) d
  let attn := blk.self_attn nxs nxs nxs xx_mask
  let xs1 : T3 := fun b t d => blk.dropout1 (attn.1 b t d) + xs b t d
  let n2 : T3 := fun b t d => blk.norm2 (xs1 b t) d
  let ff : T3 := blk.feed_forward.forward n2
  (fun b t d => blk.dropout2 (ff b t d) + xs1 b t d, attn.2)

/-- The `attn_type` argument of the transformer blocks (a string in the
Python code): `average` is the value both `TransformerDecoderBlock.__init__`
and `.forward` test for; `scaled_dot` is the supported value; `other n`
stands for any other string. -/
inductive MHAttnType where
  | average
  | scaled_dot
  | other (n : ℕ)
deriving DecidableEq

/-- Structure `TransformerDecoderBlock` (transformer.py, lines 164–278), after a
successful `__init__`.  `self_attn` and `src_attn` stand for the
`MultiheadAttentionMechanism` sub-modules (`(key, value, query, mask)` to
output and weights), `norm1`–`norm3` for the `nn.LayerNorm` sub-modules,
`dropout1`–`dropout3` for the element-wise `nn.Dropout` sub-modules. -/
structure TransformerDecoderBlock where
  attn_type : MHAttnType
  n_heads : ℕ
  src_attention : Bool
  self_attn : T3 → T3 → T3 → M4 → T3 × T3
  src_attn : T3 → T3 → T3 → M4 → T3 × T3
  norm1 : (ℕ → ℝ) → ℕ → ℝ
  norm2 : (ℕ → ℝ) → ℕ → ℝ
  norm3 : (ℕ → ℝ) → ℕ → ℝ
  dropout1 : ℝ → ℝ
  dropout2 : ℝ → ℝ
  dropout3 : ℝ → ℝ
  feed_forward : PositionwiseFeedForward

/-- Constructor `TransformerDecoderBlock.__init__` (transformer.py, lines 182–224):
raises `NotImplementedError` (`none`) when `attn_type = "average"` (lines
198–199); otherwise assembles the block.  The sub-modules it would
construct (`MultiheadAttentionMechanism`, `nn.LayerNorm`, `nn.Dropout`,
`PositionwiseFeedForward`) are external and passed in. -/
def TransformerDecoderBlock.init (attn_type : MHAttnType) (n_heads : ℕ)
    (src_attention : Bool) (selfA srcA : T3 → T3 → T3 → M4 → T3 × T3)
    (n1 n2 n3 : (ℕ → ℝ) → ℕ → ℝ) (d1 d2 d3 : ℝ → ℝ)
    (ff : PositionwiseFeedForward) : Option TransformerDecoderBlock :=
  if attn_type = .average then none
  else
    some { attn_type := attn_type, n_heads := n_heads,
           src_attention := src_attention,
           self_attn := selfA, src_attn := srcA,
           norm1 := n1, norm2 := n2, norm3 := n3,
           dropout1 := d1, dropout2 := d2, dropout3 := d3,
           feed_forward := ff }

/-- The decoder self-attention mask `yy_mask` (transformer.py, lines
244–248): the padding mask of `ylens`, expanded over the query and head
axes (entry `(b, h, i, j)` reads the padding mask at `(b, j)`), intersected
(`&`) with the subsequent-position mask `tril(ones(ymax, ymax), 0)`, which
is `1` exactly where `j ≤ i`. -/
def yyMask (ylens : ℕ → ℕ) : M4 :=
  fun b _h i j => make_pad_mask ylens b j && decide (j ≤ i)

/-- The decoder source-target mask `xy_mask` (transformer.py, lines
263–266): the element-wise product of the expanded `xlens` padding mask
(read at the key position `j`) and the expanded `ylens` padding mask (read
at the query position `i`). -/
def xyMask (xlens ylens : ℕ → ℕ) : M4 :=
  fun b _h i j => make_pad_mask xlens b j && make_pad_mask ylens b i

/-- Method `TransformerDecoderBlock.forward` (transformer.py, lines 226–278):
raises `NotImplementedError` when `attn_type = "average"` (lines 251–252);
otherwise: pre-norm self-attention under `yy_mask` with residual, then (if
`src_attention`) pre-norm source attention with `key = value = xs` under
`xy_mask` with residual, then the pre-norm feed-forward with residual.
Returns `(ys, yy_aw, xy_aw)`, with `xy_aw = none` when source attention is
disabled. -/
def TransformerDecoderBlock.forward (blk : TransformerDecoderBlock) (ys : T3)
    (ylens : ℕ → ℕ) (xs : T3) (xlens : ℕ → ℕ) : Option (T3 × T3 × Option T3) :=
  let yy_mask : M4 := yyMask ylens
  if blk.attn_type = .average then none
  else
    let n1 : T3 := fun b t d => blk.norm1 (ys b t) d
    let sa := blk.self_attn n1 n1 n1 yy_mask
    let ys1 : T3 := fun b t d => blk.dropout1 (sa.1 b t d) + ys b t d
    if blk.src_attention then
      let n2 : T3 := fun b t d => blk.norm2 (ys1 b t) d
      let ca := blk.src_attn xs xs n2 (xyMask xlens ylens)
      let ys2 : T3 := fun b t d => blk.dropout2 (ca.1 b t d) + ys1 b t d
      let n3 : T3 := fun b t d => blk.norm3 (ys2 b t) d
      let ff : T3 := blk.feed_forward.forward n3
      some (fun b t d => blk.dropout3 (ff b t d) + ys2 b t d, sa.2, some ca.2)
    else
      let n3 : T3 := fun b t d => blk.norm3 (ys1 b t) d
      let ff : T3 := blk.feed_forward.forward n3
      some (fun b t d => blk.dropout3 (ff b t d) + ys1 b t d, sa.2, none)

/-! ## Concrete instances used by the witnesses -/

/-- A concrete additive-attention module with trivial sub-module maps. -/
def egAttn : AttentionMechanism :=
  { attn_type := .add
    attn_dim := 2
    sharpening_factor := 1
    sigmoid_smoothing := false
    dropout := none
    w_enc := fun x _ => x 0
    w_dec := fun x _ => x 0
    v := fun x => x 0
    conv := fun _ _ _ _ => 0
    w_conv := fun x _ => x 0
    enc_out_a := none
    mask := none }

/-- A concrete encoder output tensor. -/
def egEnc : T3 := fun _ _ _ => 1

/-- Concrete encoder lengths: every sequence has length 1. -/
def egLens : ℕ → ℕ := fun _ => 1

/-- A concrete decoder state. -/
def egDec : T2 := fun _ _ => 0

/-- The same module with an unimplemented `luong_dot` attention type. -/
def egLuong : AttentionMechanism := { egAttn with attn_type := .luong_dot }

/-- An all-zero encoder output tensor. -/
def egEnc0 : T3 := fun _ _ _ => 0

/-- The concrete module as left by a previous `forward` call on the
all-ones encoder output `egEnc`: its `enc_out_a` cache holds
`w_enc(egEnc)`, which is stale for any other encoder output. -/
def egAttnStaleEnc : AttentionMechanism :=
  { egAttn with enc_out_a := some (egAttn.precompute egEnc) }

/-- The concrete module as left by a previous `forward` call with
`enc_time = 2` and all-zero sequence lengths: its `mask` cache is the
all-zero padding mask, which is stale for any later lengths. -/
def egAttnStaleMask : AttentionMechanism :=
  { egAttn with mask := some (buildMask 2 (fun _ => 0)) }

/-- A concrete multi-head attention stand-in: returns the value tensor and
zero weights. -/
def egSA : T3 → T3 → T3 → M4 → T3 × T3 := fun _ v _ _ => (v, fun _ _ _ => 0)

/-- A concrete layer-norm stand-in (the identity map). -/
def egNorm : (ℕ → ℝ) → ℕ → ℝ := fun x => x

/-- A concrete element-wise dropout stand-in (the identity map). -/
def egDrop : ℝ → ℝ := fun x => x

/-- A concrete position-wise feed-forward module. -/
def egPFF : PositionwiseFeedForward :=
  { d_model := 2, d_ff := 2
    W1 := fun _ _ => 1, b1 := fun _ => 0
    W2 := fun _ _ => 1, b2 := fun _ => 0
    dropoutF := fun x => x }

/-- A concrete encoder block with identity dropouts. -/
def egEncBlock : TransformerEncoderBlock :=
  { n_heads := 1, self_attn := egSA, norm1 := egNorm, dropout1 := egDrop
    feed_forward := egPFF, norm2 := egNorm, dropout2 := egDrop }

/-- A concrete positional-encoding module with `pe_type` equal to `add`. -/
def egPEadd : PositionalEncoding :=
  PositionalEncoding.init 2 .add 5 (fun xs => xs)

/-- A concrete positional-encoding module with `pe_type` equal to `concat`. -/
def egPEcat : PositionalEncoding :=
  PositionalEncoding.init 2 .concat 5 (fun xs => xs)

/-- A concrete positional-encoding module with a falsy `pe_type`. -/
def egPEnil : PositionalEncoding :=
  PositionalEncoding.init 2 .nil 5 (fun xs => xs)

/-- A concrete positional-encoding module with an unsupported truthy
`pe_type`. -/
def egPEother : PositionalEncoding :=
  PositionalEncoding.init 2 (.other 0) 5 (fun xs => xs)

/-! ## Theorems -/

/-- C1: on a call with no cached mask (`self.mask is None` on entry, as on
a fresh or reset module), with `sigmoid_smoothing = False` and dropout
disabled, every batch row `b` with `1 ≤ x_lens[b] < enc_time` of the
returned attention weights is zero at every position `t ≥ x_lens[b]`:
padded encoder positions receive zero attention weight. -/
theorem attention_masks_padded_positions
    (m : AttentionMechanism) (enc_out : T3) (enc_time : ℕ) (x_lens : ℕ → ℕ)
    (dec_out : T2) (aw_step : Option T2) (b t : ℕ)
    (hmask : m.mask = none) (hsig : m.sigmoid_smoothing = false)
    (hdrop : m.dropout = none)
    (h1 : 1 ≤ x_lens b) (h2 : x_lens b < enc_time) (ht : x_lens b ≤ t) :
    Option.elim (m.forward enc_out enc_time x_lens dec_out aw_step) True
      (fun r => r.aw b t = 0) := by
  cases hat : m.attn_type <;>
    simp [AttentionMechanism.forward, AttentionMechanism.energyOf, hat,
      AttentionMechanism.maskUsed, hmask, hdrop, AttentionMechanism.smooth, hsig,
      buildMask, h2, ht]

/-- Witness for C1 at a concrete call. -/
theorem attention_masks_padded_positions_witness :
    egAttn.mask = none ∧ 1 ≤ egLens 0 ∧ egLens 0 < 2 ∧ egLens 0 ≤ 1 ∧
    Option.elim (egAttn.forward egEnc 2 egLens egDec none) True
      (fun r => r.aw 0 1 = 0) :=
  ⟨rfl, by decide, by decide, by decide,
    attention_masks_padded_positions egAttn egEnc 2 egLens egDec none 0 1
      rfl rfl rfl (by decide) (by decide) (by decide)⟩

/-- The softmax branch of `AttentionMechanism.smooth` yields non-negative
weights. -/
theorem smooth_nonneg (m : AttentionMechanism) (hsig : m.sigmoid_smoothing = false)
    (mask energy : T2) (enc_time : ℕ) (b t : ℕ) :
    0 ≤ m.smooth mask energy enc_time b t := by
  simp only [AttentionMechanism.smooth, hsig, if_false, Bool.false_eq_true]
  apply div_nonneg
  · split
    · exact le_refl 0
    · exact (Real.exp_pos _).le
  · apply Finset.sum_nonneg
    intro u _
    split
    · exact le_refl 0
    · exact (Real.exp_pos _).le

/-- Over the mask built from `x_lens`, the softmax branch of
`AttentionMechanism.smooth` sums to 1 on every row `b` with
`1 ≤ x_lens b`, provided the time axis is non-empty. -/
theorem smooth_buildMask_sum_one (m : AttentionMechanism)
    (hsig : m.sigmoid_smoothing = false) (enc_time : ℕ) (x_lens : ℕ → ℕ)
    (energy : T2) (b : ℕ) (hb : 1 ≤ x_lens b) (hT : 0 < enc_time) :
    (∑ t ∈ Finset.range enc_time,
      m.smooth (buildMask enc_time x_lens) energy enc_time b t) = 1 := by
  simp only [AttentionMechanism.smooth, hsig, if_false, Bool.false_eq_true]
  have hpos : 0 < ∑ u ∈ Finset.range enc_time,
      (if buildMask enc_time x_lens b u = 0 then 0
       else Real.exp (energy b u * m.sharpening_factor)) := by
    apply Finset.sum_pos'
    · intro u _
      split
      · exact le_refl 0
      · exact (Real.exp_pos _).le
    · refine ⟨0, Finset.mem_range.2 hT, ?_⟩
      have h0 : buildMask enc_time x_lens b 0 = 1 := by
        simp [buildMask]
        omega
      rw [h0]
      simp [Real.exp_pos]
  rw [← Finset.sum_div, div_self (ne_of_gt hpos)]

/-- C8: on a call whose mask is the current one for `x_lens` (no cache or
the cache built from the same `x_lens`), with `sigmoid_smoothing = False`
and dropout disabled, every batch row `b` with `x_lens[b] ≥ 1` of the
returned attention weights is non-negative and sums to 1 over the
(non-empty) time axis, and the returned context is the attention-weighted
sum of the encoder outputs. -/
theorem attention_weights_distribution
    (m : AttentionMechanism) (enc_out : T3) (enc_time : ℕ) (x_lens : ℕ → ℕ)
    (dec_out : T2) (aw_step : Option T2) (b : ℕ)
    (hmask : m.mask = none ∨ m.mask = some (buildMask enc_time x_lens))
    (hsig : m.sigmoid_smoothing = false) (hdrop : m.dropout = none)
    (hb : 1 ≤ x_lens b) (hT : 0 < enc_time) :
    Option.elim (m.forward enc_out enc_time x_lens dec_out aw_step) True
      (fun r => (∀ t, 0 ≤ r.aw b t) ∧
        (∑ t ∈ Finset.range enc_time, r.aw b t) = 1 ∧
        (∀ e, r.context b e = ∑ t ∈ Finset.range enc_time, r.aw b t * enc_out b t e)) := by
  have hmu : m.maskUsed enc_time x_lens = buildMask enc_time x_lens := by
    rcases hmask with h | h <;> simp [AttentionMechanism.maskUsed, h]
  cases hat : m.attn_type <;>
    simp only [AttentionMechanism.forward, AttentionMechanism.energyOf, hat,
      hmu, hdrop, Option.elim] <;>
    try exact trivial
  all_goals
    refine ⟨fun t => smooth_nonneg m hsig _ _ _ _ _,
      smooth_buildMask_sum_one m hsig enc_time x_lens _ b hb hT,
      by simp⟩

/-- Witness for C8 at a concrete call. -/
theorem attention_weights_distribution_witness :
    (egAttn.mask = none ∨ egAttn.mask = some (buildMask 2 egLens)) ∧
    1 ≤ egLens 0 ∧ (0 : ℕ) < 2 ∧
    Option.elim (egAttn.forward egEnc 2 egLens egDec none) True
      (fun r => (∀ t, 0 ≤ r.aw 0 t) ∧
        (∑ t ∈ Finset.range 2, r.aw 0 t) = 1 ∧
        (∀ e, r.context 0 e = ∑ t ∈ Finset.range 2, r.aw 0 t * egEnc 0 t e)) :=
  ⟨Or.inl rfl, by decide, by decide,
    attention_weights_distribution egAttn egEnc 2 egLens egDec none 0
      (Or.inl rfl) rfl rfl (by decide) (by decide)⟩

/-- C8 counterexample: the claim fails without a cache-currency proviso.
The module `egAttnStaleMask` carries the mask cached by a previous call
with all-zero sequence lengths; a later call meeting every condition the
claim states (`sigmoid_smoothing = False`, dropout disabled,
`x_lens[b] = 1 ≥ 1`, `enc_time = 2`) reuses that stale all-zero mask, so
the returned row sums to 0, not 1 (in floating point, the softmax of an
all-`-inf` row is NaN). -/
theorem attention_weights_distribution_counterexample :
    egAttnStaleMask.sigmoid_smoothing = false ∧ egAttnStaleMask.dropout = none ∧
    1 ≤ egLens 0 ∧
    ¬ Option.elim (egAttnStaleMask.forward egEnc 2 egLens egDec none) True
        (fun r => (∑ t ∈ Finset.range 2, r.aw 0 t) = 1) := by
  refine ⟨rfl, rfl, by decide, ?_⟩
  simp [egAttnStaleMask, egAttn, AttentionMechanism.forward, AttentionMechanism.energyOf,
    AttentionMechanism.maskUsed, AttentionMechanism.encA, AttentionMechanism.smooth,
    buildMask, Finset.sum_range_succ]

/-- C3: on a call whose cached encoder features are current for `enc_out`
(no cache yet, or the cache is `w_enc(enc_out)`), the unmasked energy used
by `forward` is `v(tanh(w_enc(enc_out) + w_dec(dec_out)))` for
`attn_type` equal to `add` (with `dec_out` broadcast over the `enc_time` axis)
and `matmul(w_enc(enc_out), w_dec(dec_out)ᵀ)` squeezed to `[B, T]` for
`attn_type` equal to `dot`; and the attention weights apply the softmax (or
sigmoid, under `sigmoid_smoothing`) to the masked energy multiplied by
`sharpening_factor`. -/
theorem attention_energy_formulas
    (m : AttentionMechanism) (enc_out : T3) (dec_out : T2) (aw_prev : T2)
    (henc : m.enc_out_a = none ∨ m.enc_out_a = some (m.precompute enc_out)) :
    (m.attn_type = .add →
      m.energyOf (m.encA enc_out) dec_out aw_prev =
        some (fun b t => m.v (fun a =>
          Real.tanh (m.w_enc (enc_out b t) a + m.w_dec (dec_out b) a)))) ∧
    (m.attn_type = .dot →
      m.energyOf (m.encA enc_out) dec_out aw_prev =
        some (fun b t => ∑ a ∈ Finset.range m.attn_dim,
          m.w_enc (enc_out b t) a * m.w_dec (dec_out b) a)) ∧
    (m.sigmoid_smoothing = false → ∀ mask energy : T2, ∀ enc_time b t : ℕ,
      m.smooth mask energy enc_time b t =
        (if mask b t = 0 then 0 else Real.exp (energy b t * m.sharpening_factor)) /
        (∑ u ∈ Finset.range enc_time,
          if mask b u = 0 then 0 else Real.exp (energy b u * m.sharpening_factor))) ∧
    (m.sigmoid_smoothing = true → ∀ mask energy : T2, ∀ enc_time b t : ℕ,
      m.smooth mask energy enc_time b t =
        if mask b t = 0 then 0
        else 1 / (1 + Real.exp (-(energy b t * m.sharpening_factor)))) := by
  have hA : m.encA enc_out = m.precompute enc_out := by
    rcases henc with h | h <;> simp [AttentionMechanism.encA, h]
  refine ⟨?_, ?_, ?_, ?_⟩
  · intro hat
    simp [AttentionMechanism.energyOf, hat, hA, AttentionMechanism.precompute]
  · intro hat
    simp [AttentionMechanism.energyOf, hat, hA, AttentionMechanism.precompute]
  · intro hsig mask energy enc_time b t
    simp [AttentionMechanism.smooth, hsig]
  · intro hsig mask energy enc_time b t
    simp [AttentionMechanism.smooth, hsig]

/-- Witness for C3 at a concrete additive-attention module. -/
theorem attention_energy_formulas_witness :
    (egAttn.enc_out_a = none ∨ egAttn.enc_out_a = some (egAttn.precompute egEnc)) ∧
    egAttn.attn_type = .add ∧
    egAttn.energyOf (egAttn.encA egEnc) egDec (fun _ _ => 0) =
      some (fun b t => egAttn.v (fun a =>
        Real.tanh (egAttn.w_enc (egEnc b t) a + egAttn.w_dec (egDec b) a))) :=
  ⟨Or.inl rfl, rfl,
    (attention_energy_formulas egAttn egEnc egDec (fun _ _ => 0) (Or.inl rfl)).1 rfl⟩

/-- C3 counterexample: the claim fails without a cache-currency proviso.
The module `egAttnStaleEnc` carries the encoder features cached by a
previous call on the all-ones encoder output `egEnc`; on a later call
with the all-zero encoder output `egEnc0` and `attn_type = add`, the
unmasked energy `forward` uses (computed from `self.enc_out_a`) differs
from `v(tanh(w_enc(enc_out) + w_dec(dec_out)))`: at entry `(0, 0)` the
former is `tanh 1` and the latter `tanh 0 = 0`. -/
theorem attention_energy_formulas_counterexample :
    egAttnStaleEnc.attn_type = .add ∧
    egAttnStaleEnc.energyOf (egAttnStaleEnc.encA egEnc0) egDec (fun _ _ => 0) ≠
      some (fun b t => egAttnStaleEnc.v (fun a =>
        Real.tanh (egAttnStaleEnc.w_enc (egEnc0 b t) a + egAttnStaleEnc.w_dec (egDec b) a))) := by
  refine ⟨rfl, ?_⟩
  intro h
  have h1 : Option.map (fun f : T2 => f 0 0)
      (egAttnStaleEnc.energyOf (egAttnStaleEnc.encA egEnc0) egDec (fun _ _ => 0)) =
      some (egAttnStaleEnc.v (fun a =>
        Real.tanh (egAttnStaleEnc.w_enc (egEnc0 0 0) a + egAttnStaleEnc.w_dec (egDec 0) a))) := by
    rw [h]
    rfl
  simp [AttentionMechanism.energyOf, AttentionMechanism.encA, AttentionMechanism.precompute,
    egAttnStaleEnc, egAttn, egEnc0, egEnc, egDec] at h1
  have htanh : 0 < Real.tanh 1 := by
    rw [Real.tanh_eq_sinh_div_cosh]
    exact div_pos (Real.sinh_pos_iff.2 (by norm_num)) (Real.cosh_pos 1)
  exact ne_of_gt htanh h1

/-- C9: a first `forward` call (both caches empty) stores `w_enc(enc_out)`
in `enc_out_a` and the padding mask built from `x_lens` in `mask`; a later
call on a module holding caches `A` and `M` keeps them unchanged whatever
its arguments are, and its result does not depend on the `x_lens`
argument at all; `reset` sets both caches back to `None` and modifies no
other attribute. -/
theorem attention_cache_until_reset
    (m : AttentionMechanism) (enc_out : T3) (enc_time : ℕ)
    (x_lens x_lens' : ℕ → ℕ) (dec_out : T2) (aw_step : Option T2)
    (A : T3) (M : T2) :
    (m.reset.enc_out_a = none ∧ m.reset.mask = none ∧
      m.reset.attn_type = m.attn_type ∧ m.reset.attn_dim = m.attn_dim ∧
      m.reset.sharpening_factor = m.sharpening_factor ∧
      m.reset.sigmoid_smoothing = m.sigmoid_smoothing ∧
      m.reset.dropout = m.dropout ∧ m.reset.w_enc = m.w_enc ∧
      m.reset.w_dec = m.w_dec ∧ m.reset.v = m.v ∧
      m.reset.conv = m.conv ∧ m.reset.w_conv = m.w_conv) ∧
    (m.enc_out_a = none → m.mask = none →
      Option.elim (m.forward enc_out enc_time x_lens dec_out aw_step) True
        (fun r => r.st.enc_out_a = some (m.precompute enc_out) ∧
          r.st.mask = some (buildMask enc_time x_lens))) ∧
    (m.enc_out_a = some A → m.mask = some M →
      Option.elim (m.forward enc_out enc_time x_lens dec_out aw_step) True
        (fun r => r.st.enc_out_a = some A ∧ r.st.mask = some M) ∧
      m.forward enc_out enc_time x_lens dec_out aw_step =
        m.forward enc_out enc_time x_lens' dec_out aw_step) := by
  refine ⟨?_, ?_, ?_⟩
  · exact ⟨rfl, rfl, rfl, rfl, rfl, rfl, rfl, rfl, rfl, rfl, rfl, rfl⟩
  · intro he hm
    cases hat : m.attn_type <;>
      simp [AttentionMechanism.forward, AttentionMechanism.energyOf, hat,
        AttentionMechanism.encA, AttentionMechanism.maskUsed, he, hm]
  · intro he hm
    constructor
    · cases hat : m.attn_type <;>
        simp [AttentionMechanism.forward, AttentionMechanism.energyOf, hat,
          AttentionMechanism.encA, AttentionMechanism.maskUsed, he, hm]
    · cases hat : m.attn_type <;>
        simp [AttentionMechanism.forward, AttentionMechanism.energyOf, hat,
          AttentionMechanism.encA, AttentionMechanism.maskUsed, he, hm]

/-- Witness for C9: a fresh concrete module stores the precomputed encoder
features and the mask, and `reset` empties both caches. -/
theorem attention_cache_until_reset_witness :
    (egAttn.enc_out_a = none ∧ egAttn.mask = none) ∧
    Option.elim (egAttn.forward egEnc 2 egLens egDec none) True
      (fun r => r.st.enc_out_a = some (egAttn.precompute egEnc) ∧
        r.st.mask = some (buildMask 2 egLens)) ∧
    (egAttn.reset.enc_out_a = none ∧ egAttn.reset.mask = none ∧
      egAttn.reset.attn_type = egAttn.attn_type) :=
  ⟨⟨rfl, rfl⟩,
    (attention_cache_until_reset egAttn egEnc 2 egLens egLens egDec none
      (fun _ _ _ => 0) (fun _ _ => 0)).2.1 rfl rfl,
    (attention_cache_until_reset egAttn egEnc 2 egLens egLens egDec none
      (fun _ _ _ => 0) (fun _ _ => 0)).1.1,
    (attention_cache_until_reset egAttn egEnc 2 egLens egLens egDec none
      (fun _ _ _ => 0) (fun _ _ => 0)).1.2.1,
    (attention_cache_until_reset egAttn egEnc 2 egLens egLens egDec none
      (fun _ _ _ => 0) (fun _ _ => 0)).1.2.2.1⟩

/-- C10: the unsupported variants raise `NotImplementedError` and return
no result: `AttentionMechanism.forward` for the three `luong_*` attention
types, `TransformerDecoderBlock.__init__` for `attn_type` equal to `average`, and
`PositionalEncoding.forward` for every truthy `pe_type` other than `add`
and `concat`. -/
theorem unsupported_variants_raise :
    (∀ (m : AttentionMechanism) (enc_out : T3) (enc_time : ℕ) (x_lens : ℕ → ℕ)
        (dec_out : T2) (aw_step : Option T2),
      (m.attn_type = .luong_dot ∨ m.attn_type = .luong_general ∨
        m.attn_type = .luong_concat) →
      m.forward enc_out enc_time x_lens dec_out aw_step = none) ∧
    (∀ (n_heads : ℕ) (src_attention : Bool)
        (selfA srcA : T3 → T3 → T3 → M4 → T3 × T3)
        (n1 n2 n3 : (ℕ → ℝ) → ℕ → ℝ) (d1 d2 d3 : ℝ → ℝ)
        (ff : PositionwiseFeedForward),
      TransformerDecoderBlock.init .average n_heads src_attention selfA srcA
        n1 n2 n3 d1 d2 d3 ff = none) ∧
    (∀ (p : PositionalEncoding) (xs : T3) (dsz : ℕ),
      p.pe_type.truthy = true → p.pe_type ≠ .add → p.pe_type ≠ .concat →
      p.forward xs dsz = none) := by
  refine ⟨?_, ?_, ?_⟩
  · intro m enc_out enc_time x_lens dec_out aw_step h
    rcases h with h | h | h <;>
      simp [AttentionMechanism.forward, AttentionMechanism.energyOf, h]
  · intro n_heads src_attention selfA srcA n1 n2 n3 d1 d2 d3 ff
    simp [TransformerDecoderBlock.init]
  · intro p xs dsz htr hna hnc
    cases hp : p.pe_type with
    | nil => rw [hp] at htr; exact absurd htr (by simp [PeType.truthy])
    | add => exact absurd hp hna
    | concat => exact absurd hp hnc
    | other n => simp [PositionalEncoding.forward, hp, PeType.truthy]

/-- Witness for C10: concrete raising calls for all three entry points. -/
theorem unsupported_variants_raise_witness :
    egLuong.attn_type = .luong_dot ∧
    egLuong.forward egEnc 2 egLens egDec none = none ∧
    TransformerDecoderBlock.init .average 1 true egSA egSA egNorm egNorm egNorm
      egDrop egDrop egDrop egPFF = none ∧
    egPEother.pe_type.truthy = true ∧
    egPEother.forward egEnc 2 = none :=
  ⟨rfl,
    unsupported_variants_raise.1 egLuong egEnc 2 egLens egDec none (Or.inl rfl),
    unsupported_variants_raise.2.1 1 true egSA egSA egNorm egNorm egNorm
      egDrop egDrop egDrop egPFF,
    rfl,
    unsupported_variants_raise.2.2 egPEother egEnc 2 rfl
      (by simp [egPEother, PositionalEncoding.init]) (by simp [egPEother, PositionalEncoding.init])⟩

/-- C4: the decoder self-attention mask `yy_mask` passed to `self_attn` by
`TransformerDecoderBlock.forward` is zero at every entry `(b, h, i, j)`
with `j > i`: the padding mask is intersected with the lower-triangular
subsequent mask, so a decoder position never attends to a later
position. -/
theorem decoder_self_attention_mask_is_causal (ylens : ℕ → ℕ) (b h i j : ℕ)
    (hij : i < j) : yyMask ylens b h i j = false := by
  have hji : ¬ (j ≤ i) := by omega
  simp [yyMask, hji]

/-- Witness for C4 at a concrete entry above the diagonal. -/
theorem decoder_self_attention_mask_is_causal_witness :
    (0 : ℕ) < 1 ∧ yyMask egLens 0 0 0 1 = false :=
  ⟨by decide, decoder_self_attention_mask_is_causal egLens 0 0 0 1 (by decide)⟩

/-- The log-space rate of `PositionalEncoding.__init__` equals the power
form `10000^(−2k/d_model)`. -/
theorem peDivTerm_eq_rpow (d_model k : ℕ) :
    peDivTerm d_model k = (10000 : ℝ) ^ (-(2 * (k : ℝ)) / (d_model : ℝ)) := by
  rw [peDivTerm, Real.rpow_def_of_pos (by norm_num : (0 : ℝ) < 10000)]
  congr 1
  ring

/-- C5: for a truthy `pe_type`, `PositionalEncoding.__init__` precomputes
the buffer `pe` of shape `[1, max_len, d_model]` with
`pe[0, pos, 2i] = sin(pos · 10000^(−2i/d_model))` and
`pe[0, pos, 2i+1] = cos(pos · 10000^(−2i/d_model))` for every
`pos < max_len` and `2i < d_model`. -/
theorem positional_encoding_table (d_model : ℕ) (pe_type : PeType)
    (max_len : ℕ) (drop : T3 → T3) (pos i : ℕ)
    (htr : pe_type.truthy = true) (hpos : pos < max_len) (hi : 2 * i < d_model) :
    (PositionalEncoding.init d_model pe_type max_len drop).pe pos (2 * i) =
      Real.sin ((pos : ℝ) * (10000 : ℝ) ^ (-(2 * (i : ℝ)) / (d_model : ℝ))) ∧
    (PositionalEncoding.init d_model pe_type max_len drop).pe pos (2 * i + 1) =
      Real.cos ((pos : ℝ) * (10000 : ℝ) ^ (-(2 * (i : ℝ)) / (d_model : ℝ))) := by
  have hmod : (2 * i) % 2 = 0 := by omega
  have hdiv : 2 * i / 2 = i := by omega
  have hmod' : (2 * i + 1) % 2 = 1 := by omega
  have hdiv' : (2 * i + 1) / 2 = i := by omega
  constructor
  · simp [PositionalEncoding.init, htr, hpos, peTable, hmod, hdiv, peDivTerm_eq_rpow]
  · simp [PositionalEncoding.init, htr, hpos, peTable, hmod', hdiv', peDivTerm_eq_rpow]

/-- Witness for C5 at `d_model = 2`, `pos = 1`, `i = 0`. -/
theorem positional_encoding_table_witness :
    PeType.truthy .add = true ∧ (1 : ℕ) < 5 ∧ 2 * 0 < 2 ∧
    ((PositionalEncoding.init 2 .add 5 (fun xs => xs)).pe 1 (2 * 0) =
      Real.sin ((1 : ℕ) * (10000 : ℝ) ^ (-(2 * ((0 : ℕ) : ℝ)) / ((2 : ℕ) : ℝ))) ∧
    (PositionalEncoding.init 2 .add 5 (fun xs => xs)).pe 1 (2 * 0 + 1) =
      Real.cos ((1 : ℕ) * (10000 : ℝ) ^ (-(2 * ((0 : ℕ) : ℝ)) / ((2 : ℕ) : ℝ)))) :=
  ⟨rfl, by decide, by decide,
    positional_encoding_table 2 .add 5 (fun xs => xs) 1 0 rfl (by decide) (by decide)⟩

/-- C6: `PositionalEncoding.forward` first scales the input by
`sqrt(d_model)`; a falsy `pe_type` returns the scaled input unchanged
(no positional term, no dropout); `add` returns
`dropout(xs·sqrt(d_model) + pe)`; `concat` concatenates the positional
slice on the last dimension (at the boundary `dsz = xs.size(2)`) before
dropout. -/
theorem positional_encoding_forward_cases (p : PositionalEncoding) (xs : T3)
    (dsz : ℕ) :
    (p.pe_type.truthy = false →
      p.forward xs dsz = some (fun b t d => xs b t d * Real.sqrt (p.d_model : ℝ))) ∧
    (p.pe_type = .add →
      p.forward xs dsz = some (p.drop (fun b t d =>
        xs b t d * Real.sqrt (p.d_model : ℝ) + p.pe t d))) ∧
    (p.pe_type = .concat →
      p.forward xs dsz = some (p.drop (fun b t d =>
        if d < dsz then xs b t d * Real.sqrt (p.d_model : ℝ) else p.pe t (d - dsz)))) := by
  refine ⟨?_, ?_, ?_⟩
  · intro h
    simp [PositionalEncoding.forward, h]
  · intro h
    simp [PositionalEncoding.forward, h, PeType.truthy]
  · intro h
    simp [PositionalEncoding.forward, h, PeType.truthy]

/-- Witness for C6: the three branches at concrete modules. -/
theorem positional_encoding_forward_cases_witness :
    (egPEnil.pe_type.truthy = false ∧
      egPEnil.forward egEnc 2 = some (fun b t d => egEnc b t d * Real.sqrt ((2 : ℕ) : ℝ))) ∧
    (egPEadd.pe_type = .add ∧
      egPEadd.forward egEnc 2 = some (egPEadd.drop (fun b t d =>
        egEnc b t d * Real.sqrt ((2 : ℕ) : ℝ) + egPEadd.pe t d))) ∧
    (egPEcat.pe_type = .concat ∧
      egPEcat.forward egEnc 2 = some (egPEcat.drop (fun b t d =>
        if d < 2 then egEnc b t d * Real.sqrt ((2 : ℕ) : ℝ) else egPEcat.pe t (d - 2)))) :=
  ⟨⟨rfl, (positional_encoding_forward_cases egPEnil egEnc 2).1 rfl⟩,
    ⟨rfl, (positional_encoding_forward_cases egPEadd egEnc 2).2.1 rfl⟩,
    ⟨rfl, (positional_encoding_forward_cases egPEcat egEnc 2).2.2 rfl⟩⟩

/-- C7: `PositionwiseFeedForward.forward` is `w_2(dropout(relu(w_1(xs))))`
applied independently at every sequence position: at each `(b, t)` it is
the same single-vector map `pffPoint`, i.e. a `d_model → d_ff` linear map,
ReLU, dropout, then a `d_ff → d_model` linear map. -/
theorem positionwise_feed_forward_pointwise (f : PositionwiseFeedForward)
    (xs : T3) (b t d : ℕ) :
    f.forward xs b t d = pffPoint f (xs b t) d ∧
    pffPoint f (xs b t) d =
      (∑ k ∈ Finset.range f.d_ff,
        f.W2 d k * f.dropoutF
          (max ((∑ i ∈ Finset.range f.d_model, f.W1 k i * xs b t i) + f.b1 k) 0))
      + f.b2 d :=
  ⟨rfl, rfl⟩

/-- C2: with all dropout probabilities equal to 0 (identity dropout
layers), `TransformerEncoderBlock.forward` returns
`r + feed_forward(norm2(r))` where
`r = xs + self_attn(norm1(xs), norm1(xs), norm1(xs), mask)`: layer
normalization is applied before each sublayer and a residual connection
adds the unnormalized input around both sublayers. -/
theorem encoder_block_prenorm_residual (blk : TransformerEncoderBlock) (xs : T3)
    (xlens : ℕ → ℕ)
    (h1 : blk.dropout1 = fun x => x) (h2 : blk.dropout2 = fun x => x) :
    (blk.forward xs xlens).1 =
      (let nxs : T3 := fun b t d => blk.norm1 (xs b t) d
       let r : T3 := fun b t d =>
         xs b t d + (blk.self_attn nxs nxs nxs (encSelfAttnMask xlens)).1 b t d
       fun b t d =>
         r b t d + blk.feed_forward.forward (fun b' t' d' => blk.norm2 (r b' t') d') b t d) := by
  funext b t d
  simp only [TransformerEncoderBlock.forward, h1, h2]
  generalize (blk.self_attn (fun b t d => blk.norm1 (xs b t) d) (fun b t d => blk.norm1 (xs b t) d)
      (fun b t d => blk.norm1 (xs b t) d) (encSelfAttnMask xlens)).1 = SA
  have harg : (fun (bb tt dd : ℕ) => blk.norm2 (fun d' => SA bb tt d' + xs bb tt d') dd)
      = (fun bb tt dd => blk.norm2 (fun d' => xs bb tt d' + SA bb tt d') dd) := by
    funext bb tt dd
    congr 1
    funext d'
    exact add_comm _ _
  rw [harg]
  ring

/-- Witness for C2 at a concrete block with identity dropout layers. -/
theorem encoder_block_prenorm_residual_witness :
    egEncBlock.dropout1 = (fun x => x) ∧ egEncBlock.dropout2 = (fun x => x) ∧
    (egEncBlock.forward egEnc egLens).1 =
      (let nxs : T3 := fun b t d => egEncBlock.norm1 (egEnc b t) d
       let r : T3 := fun b t d =>
         egEnc b t d + (egEncBlock.self_attn nxs nxs nxs (encSelfAttnMask egLens)).1 b t d
       fun b t d =>
         r b t d + egEncBlock.feed_forward.forward
           (fun b' t' d' => egEncBlock.norm2 (r b' t') d') b t d) :=
  ⟨rfl, rfl, encoder_block_prenorm_residual egEncBlock egEnc egLens rfl rfl⟩

end NeuralSp
